import Mathlib

/-!
Verification of the AMS dispatch-routine specification against the source.

Shallow embedding of the relevant parts of the repository:
`ams/routines/dcopf.py`, `ams/routines/ed.py`, `ams/core/var.py`,
`ams/models/horizon.py`.  Numeric arrays are modelled over `ℚ`
(1-D arrays as `List ℚ` or `Fin n → ℚ`, 2-D arrays as
`Fin m → Fin n → ℚ`).  Components of the repository that are not part of
the provided sources (the expression evaluator in `ams/opt/omodel.py`,
the derived-quantity services in `ams/core/service.py` and the routine
state machine in `ams/routines/routine.py`) are modelled from the spec;
their doc comments say so explicitly.
-/

namespace AMS

/-- Sum reduction (`np.sum`) over a 1-D array, as used by the expression
evaluator for `sum(...)`. -/
def sumE (xs : List ℚ) : ℚ := xs.foldl (· + ·) 0

/-- Modelled from the spec: the expression evaluator
(`ams/opt/omodel.py`, not under `src/`) evaluating the DCOPF power
balance constraint string `e_str = 'sum(pd) - sum(pg)'`
(`src/ams/routines/dcopf.py`, `DCOPFModel.pb`, line 156) on live values
of `pd` and `pg`. -/
def pbEval (pd pg : List ℚ) : ℚ := sumE pd - sumE pg

/-- Modelled from the spec: the scalar-broadcast `dot` operator of the
expression-evaluator grammar (`ams/opt/omodel.py`, not under `src/`):
`t dot X` multiplies every element of the 2-D array `X` by the scalar
`t`.  It is used in the ED ramping constraints
`'pg @ Mr - t dot RR30'` and in the ED objective
`'sum(c2 @ (t dot pg)**2 + c1 @ (t dot pg))'`
(`src/ams/routines/ed.py`, lines 198-216). -/
def dotOp (t : ℚ) (X : List (List ℚ)) : List (List ℚ) :=
  X.map (fun row => row.map (fun x => t * x))

/-! ## Single-period DCOPF formulation (`src/ams/routines/dcopf.py`) -/

/-- Objective of `DCOPFModel`, from the source string
`e_str = 'sum(c2 * pg**2 + c1 * pg + c0)'` with `sense='min'`
(`src/ams/routines/dcopf.py`, line 170). -/
def dcopfObj {n : ℕ} (c2 c1 c0 pg : Fin n → ℚ) : ℚ :=
  ∑ i, (c2 i * pg i ^ 2 + c1 i * pg i + c0 i)

/-- Feasible set of `DCOPFModel` restricted to the power-balance
equality `pb` (`e_str = 'sum(pd) - sum(pg)'`, `type='eq'`, line 154-158)
and the variable bounds of `pg` (`lb=self.pmin, ub=self.pmax`,
lines 150-151 of `src/ams/routines/dcopf.py`). -/
def dcopfFeasible {n m : ℕ} (pmin pmax : Fin n → ℚ) (pd : Fin m → ℚ)
    (pg : Fin n → ℚ) : Prop :=
  (∑ j, pd j) - (∑ i, pg i) = 0 ∧ ∀ i, pmin i ≤ pg i ∧ pg i ≤ pmax i

/-- Generator cost coefficient `c2` of the spec's 1-period example. -/
def c2v : Fin 1 → ℚ := fun _ => 1 / 100

/-- Generator cost coefficient `c1` of the spec's 1-period example. -/
def c1v : Fin 1 → ℚ := fun _ => 2

/-- Generator cost coefficient `c0` of the spec's 1-period example. -/
def c0v : Fin 1 → ℚ := fun _ => 0

/-- Generator lower bound `pmin` of the spec's 1-period example. -/
def pminv : Fin 1 → ℚ := fun _ => 0

/-- Generator upper bound `pmax` of the spec's 1-period example. -/
def pmaxv : Fin 1 → ℚ := fun _ => 10

/-- Load `pd` of the spec's 1-period example. -/
def pdv : Fin 1 → ℚ := fun _ => 5

/-! ## Line-limit constraints of `DCOPFModel` -/

/-- Line-flow term `PTDF1 @ (pg - pd1) - PTDF2 * pd2` shared by the two
line-limit constraint strings of `src/ams/routines/dcopf.py`
(lines 159-168).  `@` is the matrix product of the evaluator grammar;
`*` applied to the matrix `PTDF2` and the vector `pd2` is the
matrix-vector product (the only shape-consistent reading, since the
result is combined with the line-indexed vectors `PTDF1 @ (pg - pd1)`
and `rate_a`). -/
def flowExpr {L n m : ℕ} (PTDF1 : Fin L → Fin n → ℚ) (pg pd1 : Fin n → ℚ)
    (PTDF2 : Fin L → Fin m → ℚ) (pd2 : Fin m → ℚ) : Fin L → ℚ :=
  fun l => (∑ j, PTDF1 l j * (pg j - pd1 j)) - (∑ j, PTDF2 l j * pd2 j)

/-- Constraint `lub` of `DCOPFModel`:
`e_str = 'PTDF1 @ (pg - pd1) - PTDF2 * pd2 - rate_a'`, `type='uq'`
(`src/ams/routines/dcopf.py`, lines 159-163). -/
def lubExpr {L n m : ℕ} (PTDF1 : Fin L → Fin n → ℚ) (pg pd1 : Fin n → ℚ)
    (PTDF2 : Fin L → Fin m → ℚ) (pd2 : Fin m → ℚ) (rate_a : Fin L → ℚ) :
    Fin L → ℚ :=
  fun l => flowExpr PTDF1 pg pd1 PTDF2 pd2 l - rate_a l

/-- Constraint `llb` of `DCOPFModel`:
`e_str = '- PTDF1 @ (pg - pd1) + PTDF2 * pd2 - rate_a'`, `type='uq'`
(`src/ams/routines/dcopf.py`, lines 164-168). -/
def llbExpr {L n m : ℕ} (PTDF1 : Fin L → Fin n → ℚ) (pg pd1 : Fin n → ℚ)
    (PTDF2 : Fin L → Fin m → ℚ) (pd2 : Fin m → ℚ) (rate_a : Fin L → ℚ) :
    Fin L → ℚ :=
  fun l => -flowExpr PTDF1 pg pd1 PTDF2 pd2 l - rate_a l

/-! ## Multi-period services (`RampSub`, `NumHstack`) -/

/-- Matrix product `X @ M` of the evaluator grammar, for a 2-D variable
`X` (devices by time slots) and a matrix `M`. -/
def matMulQ {m p q : ℕ} (X : Fin m → Fin p → ℚ) (M : Fin p → Fin q → ℚ) :
    Fin m → Fin q → ℚ :=
  fun i k => ∑ t, X i t * M t k

/-- Modelled from the spec: the `RampSub` derived quantity
(`ams/core/service.py`, not under `src/`), declared in
`src/ams/routines/ed.py` line 93 (`Mr`, on `pg`) and line 249 (`Mre`,
on `SOC`).  For a variable over `T + 1` time slots it is the
`(T+1) x T` subtraction operator mapping each slot to its predecessor,
so that `var @ Mr` yields adjacent-slot differences as used in the
ramping constraints `'pg @ Mr - t dot RR30'`. -/
def rampSubM (T : ℕ) : Fin (T + 1) → Fin T → ℚ :=
  fun t k =>
    if (t : ℕ) = (k : ℕ) + 1 then 1
    else if (t : ℕ) = (k : ℕ) then -1
    else 0

/-- Modelled from the spec: the `NumHstack` derived quantity
(`ams/core/service.py`, not under `src/`), declared in
`src/ams/routines/ed.py` lines 95-97 (`RR30`) and 252-260 (`EnR`,
`EtaCR`, `REtaDR`): horizontally replicate the base 1-D array `u` into
as many columns as the reference shape has. -/
def numHstack {n : ℕ} (u : Fin n → ℚ) (cols : ℕ) : Fin n → Fin cols → ℚ :=
  fun i _ => u i

/-! ## Routine state machine (`solve`) -/

/-- Modelled from the spec: the routine state machine states
`uninitialized, setup, solved, failed` (`ams/routines/routine.py`, not
under `src/`). -/
inductive RState where
  | uninitialized
  | setup
  | solved
  | failed
deriving DecidableEq

/-- Modelled from the spec: the status reported by the external solver;
`infeasible`, `unbounded` and `timeout` are the non-convergence cases. -/
inductive SolverStatus where
  | optimal
  | infeasible
  | unbounded
  | timeout
deriving DecidableEq

/-- Whether the external solver converged. -/
def SolverStatus.converged : SolverStatus → Bool
  | .optimal => true
  | _ => false

/-- Mutable routine state carried by `Routine` (`self.is_setup`,
`self.exit_code`), as exposed by `DCOPFBase.__repr__`
(`src/ams/routines/dcopf.py`, lines 106-108). -/
structure RoutineStm where
  rstate : RState
  exit_code : ℤ
deriving DecidableEq

/-- Modelled from the spec: the effect of `DCOPFBase.solve`
(`src/ams/routines/dcopf.py`, lines 110-115, delegating to
`self.om.mdl.solve`, which is not under `src/`) on the routine state.
The second component models a raised Python exception; it is always
`none`, i.e. `solve` returns normally whatever the solver status, and
on non-convergence the routine moves to `failed` with a nonzero exit
code. -/
def routineSolve (r : RoutineStm) (res : SolverStatus) :
    RoutineStm × Option String :=
  if res.converged then ({ r with rstate := .solved, exit_code := 0 }, none)
  else ({ r with rstate := .failed, exit_code := 1 }, none)

/-! ## Result unpacking (`DCOPFBase.unpack`, `ED.unpack`) -/

/-- Routine variable record as used by `DCOPFBase.unpack`: the routine
`RAlgeb`s of `src/ams/routines/dcopf.py` carry a `name`, a source
attribute `src`, an optional `owner_name` and a value `v`
(see the `pg` declaration, lines 144-152). -/
structure RAlgebEntry where
  name : String
  src : String
  owner_name : Option String
  v : List ℚ
deriving DecidableEq

/-- State touched by `unpack`: the routine's `RAlgeb` dictionary (in
declaration order), the solved numeric values of the optimization
model's variables by name (`getattr(self.om, raname).value`), and the
system device attributes, indexed by owner model name and source
attribute name (`owner.set(src=..., attr='v', idx=..., value=...)`). -/
structure RoutineState where
  ralgebs : List RAlgebEntry
  omValue : String → List ℚ
  devAttr : String → String → List ℚ

/-- Pointwise update of a device attribute, the effect of
`owner.set(src=ralgeb.src, attr='v', idx=idx, value=ralgeb.v)` at the
owner's full index set. -/
def writeDev (d : String → String → List ℚ) (ow srcA : String)
    (val : List ℚ) : String → String → List ℚ :=
  fun o s => if o = ow then (if s = srcA then val else d o s) else d o s

/-- One iteration of the loop body of `DCOPFBase.unpack`
(`src/ams/routines/dcopf.py`, lines 121-131): copy the solver value
into `ralgeb.v`; then, if the variable has no owner, `continue`,
otherwise write the value into the owner's device attribute. -/
def unpackStep (om : String → List ℚ)
    (p : List RAlgebEntry × (String → String → List ℚ)) (ra : RAlgebEntry) :
    List RAlgebEntry × (String → String → List ℚ) :=
  let ra2 : RAlgebEntry := { ra with v := om ra.name }
  match ra.owner_name with
  | none => (p.1 ++ [ra2], p.2)
  | some ow => (p.1 ++ [ra2], writeDev p.2 ow ra.src (om ra.name))

/-- `DCOPFBase.unpack` (`src/ams/routines/dcopf.py`, lines 117-132):
iterate `unpackStep` over all routine variables in declaration order. -/
def dcopfUnpack (s : RoutineState) : RoutineState :=
  let r := s.ralgebs.foldl (unpackStep s.omValue) ([], s.devAttr)
  { s with ralgebs := r.1, devAttr := r.2 }

/-- Device-attribute part of one `unpackStep` iteration. -/
def devStep (om : String → List ℚ) (d : String → String → List ℚ)
    (ra : RAlgebEntry) : String → String → List ℚ :=
  match ra.owner_name with
  | none => d
  | some ow => writeDev d ow ra.src (om ra.name)

/-- `ED.unpack` (`src/ams/routines/ed.py`, lines 225-233): the
multi-period override returns `None` immediately; no routine or device
state is read or written. -/
def edUnpack (s : RoutineState) : Option Unit × RoutineState :=
  (none, s)

/-! ## `ED.dc2ac` -/

/-- Python values relevant to `ED.dc2ac`: `None` and the class object
`NotImplementedError`. -/
inductive PyValue where
  | noneV
  | notImplementedErrorClass
deriving DecidableEq

/-- Outcome of calling a Python method: it either returns a value or
raises an exception. -/
inductive PyOutcome where
  | ret (v : PyValue)
  | raised (exc : String)
deriving DecidableEq

/-- `ED.dc2ac` (`src/ams/routines/ed.py`, lines 218-223): the body is
`return NotImplementedError`, which returns the exception class as an
ordinary value; no `raise` statement is executed. -/
def edDc2ac : PyOutcome :=
  .ret .notImplementedErrorClass

/-! ## `ams/core/var.py`: `Algeb` and `RAlgeb` -/

/-- Python truthiness of an optional string: `None` and the empty
string are falsy. -/
def pyTruthy : Option String → Bool
  | none => false
  | some s => !(s == "")

/-- Fields of `ams.core.var.Algeb` (`src/ams/core/var.py`, lines
10-30).  `owner` holds the owner model's class name when assigned. -/
structure Algeb where
  name : Option String
  tex_name : Option String
  info : Option String
  unit : Option String
  owner : Option String
  id : Option ℕ
  v : List ℚ
deriving DecidableEq

/-- `Algeb.__init__` (`src/ams/core/var.py`, lines 17-30):
`self.tex_name = tex_name if tex_name else name`; `owner` and `id` are
`None`; `self.v = np.empty(0)`. -/
def Algeb.make (name tex_name info unit : Option String) : Algeb :=
  { name := name
    info := info
    unit := unit
    tex_name := if pyTruthy tex_name then tex_name else name
    owner := none
    id := none
    v := [] }

/-- Class name of an `Algeb`'s owner, `Algeb.owner.__class__.__name__`;
`None.__class__.__name__` is `'NoneType'`. -/
def ownerClassName (owner : Option String) : String :=
  owner.getD "NoneType"

/-- Fields of `ams.core.var.RAlgeb` (`src/ams/core/var.py`, lines
38-56); `wrapped` is the Python attribute `self.Algeb`. -/
structure RAlgeb where
  wrapped : Algeb
  name : Option String
  info : Option String
  unit : Option String
  tex_name : Option String
  owner : Option String
  v : List ℚ
deriving DecidableEq

/-- `RAlgeb.__init__` (`src/ams/core/var.py`, lines 44-56): copy
`name`, `info`, `unit` from the wrapped `Algeb`; decorate `tex_name`
with the owner class name when the wrapped `tex_name` is truthy,
otherwise fall back to `self.name`; `self.v = np.empty(0)`. -/
def RAlgeb.make (a : Algeb) : RAlgeb :=
  { wrapped := a
    name := a.name
    info := a.info
    unit := a.unit
    tex_name :=
      if pyTruthy a.tex_name then
        some ((a.tex_name.getD "") ++ "_\x7b" ++ ownerClassName a.owner ++ "\x7d")
      else a.name
    owner := a.owner
    v := [] }

/-- Concrete routine variable used to exercise `dcopfUnpack`: the `pg`
variable of `DCOPFModel` (owner `StaticGen`, source attribute `p`). -/
def ra0 : RAlgebEntry :=
  { name := "pg", src := "p", owner_name := some "StaticGen", v := [] }

/-- Concrete ownerless routine variable used to exercise
`dcopfUnpack`. -/
def raU : RAlgebEntry :=
  { name := "obj", src := "val", owner_name := none, v := [] }

/-- Concrete routine state with one owned and one ownerless variable. -/
def s0 : RoutineState :=
  { ralgebs := [ra0, raU]
    omValue := fun nm => if nm = "pg" then [5] else []
    devAttr := fun _ _ => [] }

/-! ## Helper lemmas -/

lemma rampSubM_eq (T : ℕ) (t : Fin (T + 1)) (k : Fin T) :
    rampSubM T t k
      = (if t = Fin.succ k then 1 else 0)
        - (if t = Fin.castSucc k then 1 else 0) := by
  rcases t with ⟨tv, htv⟩
  rcases k with ⟨kv, hkv⟩
  simp only [rampSubM, Fin.ext_iff, Fin.val_succ, Fin.coe_castSucc]
  by_cases h1 : tv = kv + 1
  · have h2 : ¬ tv = kv := by omega
    simp [h1, h2]
  · by_cases h2 : tv = kv
    · simp [h1, h2]
    · simp [h1, h2]

lemma unpack_foldl (om : String → List ℚ) (l : List RAlgebEntry)
    (acc1 : List RAlgebEntry) (acc2 : String → String → List ℚ) :
    l.foldl (unpackStep om) (acc1, acc2) =
      (acc1 ++ l.map (fun ra => { ra with v := om ra.name }),
        l.foldl (devStep om) acc2) := by
  induction l generalizing acc1 acc2 with
  | nil => simp
  | cons ra l ih =>
    simp only [List.foldl_cons, List.map_cons]
    cases h : ra.owner_name with
    | none =>
      have hs : unpackStep om (acc1, acc2) ra
          = (acc1 ++ [{ ra with v := om ra.name }], acc2) := by
        simp [unpackStep, h]
      rw [hs, ih]
      simp [devStep, h]
    | some ow =>
      have hs : unpackStep om (acc1, acc2) ra
          = (acc1 ++ [{ ra with v := om ra.name }],
             writeDev acc2 ow ra.src (om ra.name)) := by
        simp [unpackStep, h]
      rw [hs, ih]
      simp [devStep, h]

lemma devStep_preserve (om : String → List ℚ) (d : String → String → List ℚ)
    (ra : RAlgebEntry) (ow srcA : String)
    (h : ¬(ra.owner_name = some ow ∧ ra.src = srcA)) :
    devStep om d ra ow srcA = d ow srcA := by
  cases hro : ra.owner_name with
  | none => simp [devStep, hro]
  | some ow2 =>
    simp only [devStep, hro, writeDev]
    rw [hro] at h
    by_cases h1 : ow = ow2
    · have h2 : ¬ srcA = ra.src := by
        intro h2
        exact h ⟨by rw [h1], h2.symm⟩
      simp [h1, h2]
    · simp [h1]

lemma devFold_preserve (om : String → List ℚ) (l : List RAlgebEntry)
    (d : String → String → List ℚ) (ow srcA : String)
    (h : ∀ ra ∈ l, ¬(ra.owner_name = some ow ∧ ra.src = srcA)) :
    l.foldl (devStep om) d ow srcA = d ow srcA := by
  induction l generalizing d with
  | nil => rfl
  | cons ra l ih =>
    simp only [List.foldl_cons]
    rw [ih _ (fun r hr => h r (List.mem_cons_of_mem _ hr)),
      devStep_preserve om d ra ow srcA (h ra (List.mem_cons_self ra l))]

/-! ## Claim theorems -/

/-- C1: in the single-period DCOPF routine with `c2=[0.01]`, `c1=[2]`,
`c0=[0]`, `pmin=[0]`, `pmax=[10]`, `pd=[5]`, the power-balance equality
`sum(pd) - sum(pg) = 0` and the bounds force `pg = [5]`; the minimized
objective `sum(c2 * pg**2 + c1 * pg + c0)` there equals `10.25`:
`pg=[5]` is feasible, its objective value is `41/4 = 10.25`, and every
feasible point equals it, so it is the solved optimum. -/
theorem dcopf_example_solution :
    dcopfFeasible pminv pmaxv pdv (fun _ => 5) ∧
    dcopfObj c2v c1v c0v (fun _ => 5) = 41 / 4 ∧
    ∀ pg : Fin 1 → ℚ, dcopfFeasible pminv pmaxv pdv pg →
      (pg 0 = 5 ∧
        dcopfObj c2v c1v c0v (fun _ => 5) ≤ dcopfObj c2v c1v c0v pg) := by
  refine ⟨⟨?_, ?_⟩, ?_, ?_⟩
  · simp [pdv]
  · intro i
    norm_num [pminv, pmaxv]
  · norm_num [dcopfObj, c2v, c1v, c0v, Fin.sum_univ_one]
  · intro pg hf
    have h5 : pg 0 = 5 := by
      have h := hf.1
      simp [pdv, Fin.sum_univ_one] at h
      linarith
    refine ⟨h5, ?_⟩
    have hobj : dcopfObj c2v c1v c0v pg = 41 / 4 := by
      simp [dcopfObj, c2v, c1v, c0v, Fin.sum_univ_one, h5]
      norm_num
    rw [hobj]
    norm_num [dcopfObj, c2v, c1v, c0v, Fin.sum_univ_one]

/-- Witness for C1: the point `pg=[5]` itself satisfies the feasibility
hypothesis, and instantiating the optimality clause at it evaluates the
conclusion concretely. -/
theorem dcopf_example_solution_witness :
    dcopfFeasible pminv pmaxv pdv (fun _ => 5) ∧
    ((fun _ : Fin 1 => (5 : ℚ)) 0 = 5 ∧
      dcopfObj c2v c1v c0v (fun _ => 5) ≤ dcopfObj c2v c1v c0v (fun _ => 5)) :=
  ⟨dcopf_example_solution.1,
   dcopf_example_solution.2.2 (fun _ => 5) dcopf_example_solution.1⟩

/-- C2: evaluating the DCOPF power-balance constraint string
`'sum(pd) - sum(pg)'` with `pd=[3.0, 2.0]` and `pg=[1.0, 4.0]` yields
exactly `0.0`. -/
theorem pb_balance_example : pbEval [3, 2] [1, 4] = 0 := by
  norm_num [pbEval, sumE]

/-- C3: for every positive scalar `t` and rank-2 array `X`, the
expression `t dot X` equals the array obtained by multiplying every
element of `X` by `t`: the shape is preserved and every entry of
`dotOp t X` is `t` times the corresponding entry of `X`. -/
theorem dot_scalar_broadcast (t : ℚ) (X : List (List ℚ)) (ht : 0 < t) :
    (dotOp t X).length = X.length ∧
    ∀ i (hi : i < X.length) (hi2 : i < (dotOp t X).length),
      (((dotOp t X).get ⟨i, hi2⟩).length = (X.get ⟨i, hi⟩).length ∧
      ∀ j (hj : j < (X.get ⟨i, hi⟩).length)
          (hj2 : j < ((dotOp t X).get ⟨i, hi2⟩).length),
        ((dotOp t X).get ⟨i, hi2⟩).get ⟨j, hj2⟩
          = t * (X.get ⟨i, hi⟩).get ⟨j, hj⟩) := by
  refine ⟨by simp [dotOp], ?_⟩
  intro i hi hi2
  constructor
  · simp [dotOp]
  · intro j hj hj2
    simp [dotOp]

/-- Witness for C3: `2 dot [[1, 2], [3]]` at row `0`, column `1`
equals `2 * 2`. -/
theorem dot_scalar_broadcast_witness :
    (0 : ℚ) < 2 ∧
    ((dotOp 2 [[1, 2], [3]]).get ⟨0, by simp [dotOp]⟩).get ⟨1, by simp [dotOp]⟩
      = 2 * (([[(1 : ℚ), 2], [3]].get ⟨0, by simp⟩).get ⟨1, by simp⟩) := by
  refine ⟨by norm_num, ?_⟩
  exact ((dot_scalar_broadcast 2 [[1, 2], [3]] (by norm_num)).2 0 (by simp)
    (by simp [dotOp])).2 1 (by simp) (by simp [dotOp])

/-- C4: when the external solver does not converge, `solve()` returns
normally (the exception component is `none`, i.e. nothing is raised),
the routine transitions to the `failed` state, and a nonzero exit code
is stored for callers to inspect. -/
theorem solve_nonconvergence_failed (r : RoutineStm) (res : SolverStatus)
    (h : res.converged = false) :
    (routineSolve r res).2 = none ∧
    (routineSolve r res).1.rstate = RState.failed ∧
    (routineSolve r res).1.exit_code ≠ 0 := by
  simp [routineSolve, h]

/-- Witness for C4: an infeasible solver status is a non-convergence,
and solving from the `setup` state then yields `failed` with a nonzero
exit code and raises nothing. -/
theorem solve_nonconvergence_failed_witness :
    SolverStatus.converged .infeasible = false ∧
    ((routineSolve ⟨RState.setup, 0⟩ .infeasible).2 = none ∧
      (routineSolve ⟨RState.setup, 0⟩ .infeasible).1.rstate = RState.failed ∧
      (routineSolve ⟨RState.setup, 0⟩ .infeasible).1.exit_code ≠ 0) :=
  ⟨rfl, solve_nonconvergence_failed ⟨RState.setup, 0⟩ .infeasible rfl⟩

/-- C5: `ED.unpack` returns (`None`) without writing any solver result
back into any device attribute: the whole routine state, device data
included, is left unchanged. -/
theorem ed_unpack_no_device_write (s : RoutineState) :
    (edUnpack s).1 = none ∧ (edUnpack s).2 = s :=
  ⟨rfl, rfl⟩

/-- C6 (code bug): calling `dc2ac()` on a multi-period ED routine does
NOT raise: the body `return NotImplementedError` returns the exception
class as an ordinary value, so no exception of any kind is raised,
contrary to the claim that a not-implemented marker is raised. -/
theorem ed_dc2ac_returns_marker :
    edDc2ac = PyOutcome.ret PyValue.notImplementedErrorClass ∧
    ∀ e, edDc2ac ≠ PyOutcome.raised e :=
  ⟨rfl, fun _ h => by cases h⟩

/-- C7: `DCOPFBase.unpack` copies every routine variable's solved value
from the optimization model into the variable's `v`, leaves device
attributes targeted by no owned variable untouched (in particular,
ownerless variables cause no device write), and writes the solved value
into the owner's device attribute for every variable declaring an
owner. -/
theorem dcopf_unpack_copies_and_writes (s : RoutineState) (ow srcA : String)
    (ra : RAlgebEntry) (l1 l2 : List RAlgebEntry) :
    ((dcopfUnpack s).ralgebs
        = s.ralgebs.map (fun r => { r with v := s.omValue r.name })) ∧
    ((∀ r ∈ s.ralgebs, ¬(r.owner_name = some ow ∧ r.src = srcA)) →
      (dcopfUnpack s).devAttr ow srcA = s.devAttr ow srcA) ∧
    (s.ralgebs = l1 ++ ra :: l2 → ra.owner_name = some ow →
      (∀ r ∈ l2, ¬(r.owner_name = some ow ∧ r.src = ra.src)) →
      (dcopfUnpack s).devAttr ow ra.src = s.omValue ra.name) := by
  refine ⟨?_, ?_, ?_⟩
  · simp [dcopfUnpack, unpack_foldl]
  · intro h
    simp only [dcopfUnpack, unpack_foldl]
    exact devFold_preserve _ _ _ _ _ h
  · intro hsplit hown h2
    simp only [dcopfUnpack, unpack_foldl, hsplit]
    rw [List.foldl_append]
    simp only [List.foldl_cons]
    rw [devFold_preserve _ _ _ _ _ h2]
    simp [devStep, hown, writeDev]

/-- Witness for C7: on the concrete state `s0`, unpack copies the
solved values into both variables, leaves an untargeted device
attribute unchanged, and writes the solved `pg` value into
`StaticGen.p`. -/
theorem dcopf_unpack_copies_and_writes_witness :
    ((dcopfUnpack s0).ralgebs
        = s0.ralgebs.map (fun r => { r with v := s0.omValue r.name })) ∧
    (dcopfUnpack s0).devAttr "Bus" "p0" = s0.devAttr "Bus" "p0" ∧
    (dcopfUnpack s0).devAttr "StaticGen" ra0.src = s0.omValue ra0.name :=
  ⟨(dcopf_unpack_copies_and_writes s0 "Bus" "p0" ra0 [] []).1,
   (dcopf_unpack_copies_and_writes s0 "Bus" "p0" ra0 [] []).2.1 (by decide),
   (dcopf_unpack_copies_and_writes s0 "StaticGen" "p0" ra0 [] [raU]).2.2
     rfl rfl (by decide)⟩

/-- C8: for a horizon-expanded variable over `T + 1` time slots, the
`RampSub` matrix has `T + 1` rows and `T` columns (size `T'` by
`T' - 1` for `T'` slots), and right-multiplying the variable by it
yields the adjacent-slot differences: entry `k` of `X @ Mr` is
`X (k+1) - X k`; the `NumHstack` quantity replicates the base array `u`
into every one of the `T` columns of that reference shape. -/
theorem rampsub_hstack_shape (T n : ℕ) (X : Fin n → Fin (T + 1) → ℚ)
    (i : Fin n) (k : Fin T) (u : Fin n → ℚ) (j : Fin T) :
    matMulQ X (rampSubM T) i k = X i (Fin.succ k) - X i (Fin.castSucc k) ∧
    numHstack u T i j = u i := by
  constructor
  · simp only [matMulQ, rampSubM_eq, mul_sub]
    rw [Finset.sum_sub_distrib]
    congr 1
    · rw [Finset.sum_eq_single (Fin.succ k)] <;> simp +contextual
    · rw [Finset.sum_eq_single (Fin.castSucc k)] <;> simp +contextual
  · rfl

/-- C9: for every assignment of `pg`, `pd1`, `pd2`, `PTDF1`, `PTDF2`
and `rate_a` with compatible shapes, the evaluated line-limit
expressions satisfy `lub + llb = -2 * rate_a` elementwise (the flow
term of `llb` is the exact negation of the flow term of `lub`), and
both inequality constraints `lub ≤ 0` and `llb ≤ 0` hold jointly iff
`|PTDF1 @ (pg - pd1) - PTDF2 * pd2| ≤ rate_a` elementwise. -/
theorem line_limits_negation_symmetry {L n m : ℕ}
    (PTDF1 : Fin L → Fin n → ℚ) (pg pd1 : Fin n → ℚ)
    (PTDF2 : Fin L → Fin m → ℚ) (pd2 : Fin m → ℚ) (rate_a : Fin L → ℚ) :
    (∀ l, lubExpr PTDF1 pg pd1 PTDF2 pd2 rate_a l
        + llbExpr PTDF1 pg pd1 PTDF2 pd2 rate_a l = -2 * rate_a l) ∧
    ((∀ l, lubExpr PTDF1 pg pd1 PTDF2 pd2 rate_a l ≤ 0
        ∧ llbExpr PTDF1 pg pd1 PTDF2 pd2 rate_a l ≤ 0) ↔
      (∀ l, |flowExpr PTDF1 pg pd1 PTDF2 pd2 l| ≤ rate_a l)) := by
  refine ⟨fun l => by simp only [lubExpr, llbExpr]; ring, ?_⟩
  constructor
  · intro h l
    rcases h l with ⟨h1, h2⟩
    simp only [lubExpr, llbExpr] at h1 h2
    rw [abs_le]
    constructor <;> linarith
  · intro h l
    have hl := abs_le.mp (h l)
    simp only [lubExpr, llbExpr]
    constructor <;> linarith [hl.1, hl.2]

/-- C10: an `Algeb` constructed with `tex_name=None` gets its `name` as
`tex_name`; a freshly constructed `Algeb` or `RAlgeb` has its value `v`
initialized to an empty array (length 0); and an `RAlgeb` copies
`name`, `info` and `unit` from its wrapped `Algeb`. -/
theorem algeb_defaults (n i u : Option String) (a : Algeb) :
    (Algeb.make n none i u).tex_name = n ∧
    (Algeb.make n none i u).v = [] ∧
    (Algeb.make n none i u).v.length = 0 ∧
    (RAlgeb.make a).v = [] ∧
    (RAlgeb.make a).v.length = 0 ∧
    (RAlgeb.make a).name = a.name ∧
    (RAlgeb.make a).info = a.info ∧
    (RAlgeb.make a).unit = a.unit := by
  simp [Algeb.make, RAlgeb.make, pyTruthy]

end AMS
